import Mathlib

/-!
Verification development for the Texas Hold'em decision-engine code of this
repository: the equity simulators (`pokerkit_tool`, `_estimate_equity`),
the pot-odds calculators, the decision policy and the action normalizer
(`calc_gto.py`), and the hand-strength utilities (`pokerkit_utils.py`).

Python integers are embedded as `Nat`/`Int`, float arithmetic as exact
rationals (`ℚ`), raised exceptions as
`Except String`, and the module-global random generator as an explicitly
threaded stream (a function `ℕ → ℕ` with a position counter).
-/

/-- Card suits, as in the source `Suit` enum. -/
inductive Suit : Type
  | hearts
  | diamonds
  | clubs
  | spades
deriving DecidableEq, Repr

/-- A playing card: rank 2..14 (11 = J, 12 = Q, 13 = K, 14 = A) and a suit,
mirroring the source `Card(rank, suit)` value type. -/
structure Card : Type where
  rank : Nat
  suit : Suit
deriving DecidableEq, Repr

/-- Descending insertion into a sorted list (used to sort the five ranks of a
hand without relying on library sort functions). -/
def insertDesc (a : Nat) : List Nat → List Nat
  | [] => [a]
  | b :: t => if b ≤ a then a :: b :: t else b :: insertDesc a t

/-- Sort a list of naturals in descending order. -/
def sortDesc (l : List Nat) : List Nat :=
  l.foldr insertDesc []

/-- Descending insertion for (count, rank) pairs, ordered lexicographically. -/
def insertPairDesc (a : Nat × Nat) : List (Nat × Nat) → List (Nat × Nat)
  | [] => [a]
  | b :: t =>
      if b.1 < a.1 ∨ (b.1 = a.1 ∧ b.2 ≤ a.2) then a :: b :: t
      else b :: insertPairDesc a t

/-- Sort (count, rank) pairs descending lexicographically. -/
def sortPairsDesc (l : List (Nat × Nat)) : List (Nat × Nat) :=
  l.foldr insertPairDesc []

/-- Modelled from the spec (section 3): the ranks of a straight, if any, among
exactly five sorted-descending distinct ranks; the wheel A-2-3-4-5 counts as a
5-high straight. Returns the straight's high card. The concrete evaluator
(`poker/evaluator.py`, and the external `pokerkit` evaluator) is not under
`src/`, so this follows the specification's total order. -/
def straightHigh (rs : List Nat) : Option Nat :=
  let s := sortDesc rs
  if s = [14, 5, 4, 3, 2] then some 5
  else
    match s with
    | [a, b, c, d, e] =>
        if a = b + 1 ∧ b = c + 1 ∧ c = d + 1 ∧ d = e + 1 then some a else none
    | _ => none

/-- The multiplicity-sorted rank key of a hand: each distinct rank repeated by
its multiplicity, ordered by (multiplicity, rank) descending. For a full house
KKK22 this is [13, 13, 13, 2, 2]; for a pair with kickers the pair rank comes
first, then kickers descending. -/
def multiKey (rs : List Nat) : List Nat :=
  let pairs := sortPairsDesc ((rs.dedup).map (fun r => (rs.count r, r)))
  (pairs.map (fun p => List.replicate p.1 p.2)).flatten

/-- Whether all five cards share one suit. -/
def isFlush5 (cs : List Card) : Bool :=
  match cs with
  | [] => true
  | c :: rest => rest.all (fun d => d.suit = c.suit)

/-- Modelled from the spec (section 3): the category of a five-card hand, low
to high: 0 HighCard, 1 Pair, 2 TwoPair, 3 ThreeOfAKind, 4 Straight, 5 Flush,
6 FullHouse, 7 FourOfAKind, 8 StraightFlush. -/
def category5 (cs : List Card) : Nat :=
  let rs := cs.map Card.rank
  let counts := sortDesc ((rs.dedup).map (fun r => rs.count r))
  if (straightHigh rs).isSome ∧ isFlush5 cs then 8
  else if counts.head? = some 4 then 7
  else if counts.head? = some 3 ∧ counts.tail.head? = some 2 then 6
  else if isFlush5 cs then 5
  else if (straightHigh rs).isSome then 4
  else if counts.head? = some 3 then 3
  else if counts.head? = some 2 ∧ counts.tail.head? = some 2 then 2
  else if counts.head? = some 2 then 1
  else 0

/-- The tie-break key of a five-card hand: for straights (and straight
flushes) the straight's high card, otherwise the multiplicity-sorted ranks,
padded to five entries. -/
def tieKey (cs : List Card) : List Nat :=
  let rs := cs.map Card.rank
  let cat := category5 cs
  let base :=
    if cat = 8 ∨ cat = 4 then [(straightHigh rs).getD 0]
    else multiKey rs
  base ++ List.replicate (5 - base.length) 0

/-- Modelled from the spec (section 3): a five-card hand packed into one
natural number, category first then the tie-break key, nibble by nibble, so
that the specification's total order (category, then key lexicographically)
is exactly the order on `ℕ`. -/
def handValue5 (cs : List Card) : Nat :=
  (tieKey cs).foldl (fun a r => a * 16 + r) (category5 cs)

/-- Modelled from the spec (section 4.2): the best-of-n evaluation — the
maximum `handValue5` over all five-card sublists. For a seven-card input this
ranges over the C(7,5) = 21 subsets. -/
def bestHandValue (cs : List Card) : Nat :=
  ((cs.sublists.filter (fun l => l.length = 5)).map handValue5).foldr Nat.max 0

/-- Modelled from the spec: `HandEvaluator.evaluate_hand(hole, community)` of
the repository's `poker/evaluator.py` (not under `src/`) — the best five-card
hand from hole plus community cards, per section 4.2 of the spec. -/
def evaluate_hand (hole community : List Card) : Nat :=
  bestHandValue (hole ++ community)

/-- Modelled from the spec: `HandEvaluator.compare_hands` of the repository's
`poker/evaluator.py` (not under `src/`): 1 if the first hand wins, 0 on a tie,
-1 if it loses, as consumed by `_estimate_equity`. -/
def compare_hands (a b : Nat) : Int :=
  if b < a then 1 else if a = b then 0 else -1



/-! ## String helpers for the action-descriptor parsing in `calc_gto.py` -/

/-- Whether the first list is an initial segment of the second (Python
`str.startswith` on character lists). -/
def leadsWith : List Char → List Char → Bool
  | [], _ => true
  | _ :: _, [] => false
  | a :: as, b :: bs => a = b && leadsWith as bs

/-- Whether `needle` occurs as a contiguous segment of `hay` (Python
`needle in hay`). -/
def hasSeg (needle : List Char) : List Char → Bool
  | [] => leadsWith needle []
  | h :: t => leadsWith needle (h :: t) || hasSeg needle t

/-- Python substring test `needle in hay` on strings. -/
def strHas (hay needle : String) : Bool :=
  hasSeg needle.toList hay.toList

/-- Python `str.lower()`, character by character (the source's tokens contain
only ASCII letters and suit glyphs, on which this matches CPython). -/
def pyLower (s : String) : String :=
  String.mk (s.toList.map Char.toLower)

/-- Python `str.startswith` on strings. -/
def startsWithPy (s pre : String) : Bool :=
  leadsWith pre.toList s.toList

/-- The suffix of `hay` after the first occurrence of `needle`
(Python `hay[hay.index(needle) + len(needle):]`), or `none` when absent. -/
def afterSeg (needle : List Char) : List Char → Option (List Char)
  | [] => if needle.isEmpty then some [] else none
  | h :: t =>
      if leadsWith needle (h :: t) then some ((h :: t).drop needle.length)
      else afterSeg needle t

/-- The numeric value of the digit characters of a list, as Python
`int("".join(filtered digits))`; only meaningful when at least one digit is
present. -/
def digitsVal (cs : List Char) : Nat :=
  (cs.filter Char.isDigit).foldl (fun a c => a * 10 + (c.toNat - 48)) 0

/-- Whether the list contains at least one digit character. -/
def hazDigit (cs : List Char) : Bool :=
  cs.any Char.isDigit

/-! ## The module-global random generator, made explicit

Modelled from the spec (sections 5 and 9): the source draws from Python's
module-global `random` generator; the spec requires the random source to be
"an explicit, passed-in or locally constructed random source per simulation
call". We embed the generator as an infinite sequence of naturals together
with the current position; every draw consumes one element and advances the
position, so state shared between calls is explicit. -/

/-- An explicit random stream: an infinite sequence of naturals and the
current read position. -/
structure Rng : Type where
  seq : Nat → Nat
  pos : Nat

/-- Read one natural from the stream, advancing the position. -/
def Rng.next (r : Rng) : Nat × Rng :=
  (r.seq r.pos, ⟨r.seq, r.pos + 1⟩)

/-- Modelled from the spec: `random.sample(population, k)` — draw `k` distinct
cards, each chosen by the next stream value reduced modulo the remaining
population size; returns the drawn cards, the untouched remainder, and the
advanced stream, or `none` when `k` exceeds the population (Python raises
`ValueError` there). -/
def sampleCards : Nat → List Card → Rng → Option (List Card × List Card × Rng)
  | 0, deck, r => some ([], deck, r)
  | k + 1, deck, r =>
      if deck.length = 0 then none
      else
        let (n, r') := r.next
        let i := n % deck.length
        match deck.get? i with
        | none => none
        | some c =>
            match sampleCards k (deck.eraseIdx i) r' with
            | none => none
            | some (ds, rest, r'') => some (c :: ds, rest, r'')

/-- Modelled from the spec: `random.shuffle` — a full permutation of the list,
realized by sampling all of its elements. -/
def shuffleCards (deck : List Card) (r : Rng) : List Card × Rng :=
  match sampleCards deck.length deck r with
  | some (ds, _, r') => (ds, r')
  | none => (deck, r)

/-! ## `calc_gto.py`: card parsing, deck building, Monte Carlo equity -/

/-- The `SUIT_SYMBOL_TO_ENUM` table of `calc_gto.py`. -/
def SUIT_SYMBOL_TO_ENUM : List (Char × Suit) :=
  [('♥', .hearts), ('♦', .diamonds), ('♣', .clubs), ('♠', .spades),
   ('h', .hearts), ('d', .diamonds), ('c', .clubs), ('s', .spades)]

/-- Look a character up in the suit table. -/
def lookupSuit (c : Char) : Option Suit :=
  (SUIT_SYMBOL_TO_ENUM.find? (fun p => p.1 = c)).map (·.2)

/-- The `RANK_NAME_TO_VALUE` table of `calc_gto.py`. -/
def RANK_NAME_TO_VALUE : List (String × Nat) :=
  [("2", 2), ("3", 3), ("4", 4), ("5", 5), ("6", 6), ("7", 7), ("8", 8),
   ("9", 9), ("10", 10), ("t", 10), ("j", 11), ("q", 12), ("k", 13), ("a", 14)]

/-- Look a lowercased rank token up in the rank table. -/
def lookupRank (s : String) : Option Nat :=
  (RANK_NAME_TO_VALUE.find? (fun p => p.1 = s)).map (·.2)

/-- Lowercase a character list and pack it into a string. -/
def lowerStr (cs : List Char) : String :=
  String.mk (cs.map Char.toLower)

/-- `_parse_card_string` of `calc_gto.py`: parse tokens like "A♠", "7♥",
"Ah", "Td"; if the last character is a suit symbol the rest is the rank,
otherwise the first suit symbol found anywhere is the suit and is deleted
from the token; a suitless token that is a bare rank defaults to spades;
anything else raises `ValueError` (embedded as `Except.error`). -/
def parse_card_string (cardStr : String) : Except String Card :=
  let chars := (cardStr.toList.dropWhile Char.isWhitespace).reverse.dropWhile Char.isWhitespace |>.reverse
  match chars.getLast? with
  | none => .error "Empty card string"
  | some lastChar =>
      match lookupSuit lastChar with
      | some su =>
          match lookupRank (lowerStr chars.dropLast) with
          | some v => .ok ⟨v, su⟩
          | none => .error "Invalid rank in card string"
      | none =>
          match chars.find? (fun ch => (lookupSuit ch).isSome) with
          | some ch =>
              match lookupSuit ch, lookupRank (lowerStr (chars.filter (· ≠ ch))) with
              | some su, some v => .ok ⟨v, su⟩
              | some _, none => .error "Invalid rank in card string"
              | none, _ => .error "Suit not found in card string"
          | none =>
              match lookupRank (lowerStr chars) with
              | some v => .ok ⟨v, .spades⟩
              | none => .error "Suit not found in card string"

/-- `_build_remaining_deck` of `calc_gto.py`: the 52 cards in the source's
iteration order (hearts, diamonds, clubs, spades; ranks 2..14), minus the
excluded cards. -/
def build_remaining_deck (excluded : List Card) : List Card :=
  (([Suit.hearts, Suit.diamonds, Suit.clubs, Suit.spades].map
      (fun s => (List.range 13).map (fun i => (⟨i + 2, s⟩ : Card)))).flatten).filter
    (fun c => decide (c ∉ excluded))

/-- Group a drawn list into consecutive two-card opponent hands, as the
source's indexing `draw[2*i], draw[2*i+1]` does. -/
def pairUp : List Card → List (List Card)
  | a :: b :: t => [a, b] :: pairUp t
  | _ => []

/-- `_sample_opponents_hands` of `calc_gto.py`: shuffle a copy of the deck,
and if two cards per opponent are available, deal them off the top and return
the rest; otherwise return no hands (the caller then skips the trial). -/
def sample_opponents_hands (deck : List Card) (numOpp : Nat) (r : Rng) :
    List (List Card) × List Card × Rng :=
  let (shuffled, r') := shuffleCards deck r
  if shuffled.length < 2 * numOpp then ([], shuffled, r')
  else (pairUp (shuffled.take (2 * numOpp)), shuffled.drop (2 * numOpp), r')

/-- `_complete_board_randomly` of `calc_gto.py`: draw random cards to bring
the community to five; if no cards are needed, or too few remain, the inputs
are returned unchanged (and the random stream is untouched, matching the
source where the early returns precede the shuffle). -/
def complete_board_randomly (board deck : List Card) (r : Rng) :
    List Card × List Card × Rng :=
  if 5 ≤ board.length then (board, deck, r)
  else if deck.length < 5 - board.length then (board, deck, r)
  else
    let (shuffled, r') := shuffleCards deck r
    (board ++ shuffled.take (5 - board.length), shuffled.drop (5 - board.length), r')

/-- The Monte Carlo loop of `_estimate_equity`: the state is the counter
triple (wins, ties, completed trials); a trial is skipped (state unchanged)
when the opponents could not be dealt or the board could not be completed. -/
def estLoopGto (hole community remaining : List Card) (numOpp : Nat) :
    Nat → Nat × Nat × Nat → Rng → (Nat × Nat × Nat) × Rng
  | 0, st, r => (st, r)
  | n + 1, st, r =>
      let (opps, deckAfter, r1) := sample_opponents_hands remaining numOpp r
      if opps.length ≠ numOpp then estLoopGto hole community remaining numOpp n st r1
      else
        let (finalBoard, _, r2) := complete_board_randomly community deckAfter r1
        if finalBoard.length ≠ 5 then estLoopGto hole community remaining numOpp n st r2
        else
          let myBest := evaluate_hand hole finalBoard
          let flags := opps.map (fun o => compare_hands myBest (evaluate_hand o finalBoard))
          let st' :=
            if flags.all (fun f => f == 1) then (st.1 + 1, st.2.1, st.2.2 + 1)
            else if (flags.all fun f => decide (0 ≤ f)) && (flags.any fun f => f == 0) then
              (st.1, st.2.1 + 1, st.2.2 + 1)
            else (st.1, st.2.1, st.2.2 + 1)
          estLoopGto hole community remaining numOpp n st' r2

/-- `_estimate_equity` of `calc_gto.py`: Monte Carlo equity; a non-two-card
hole returns 0.0 immediately; otherwise the equity is
(wins + 0.5 * ties) / completed_trials, or 0.0 when no trial completed. -/
def estimate_equity (hole community : List Card) (numOpp iterations : Nat)
    (r : Rng) : ℚ × Rng :=
  if hole.length ≠ 2 then (0, r)
  else
    let remaining := build_remaining_deck (hole ++ community)
    let res := estLoopGto hole community remaining numOpp (max 1 iterations) (0, 0, 0) r
    let wins := res.1.1
    let ties := res.1.2.1
    let trials := res.1.2.2
    if trials = 0 then (0, res.2)
    else (((wins : ℚ) + (ties : ℚ) / 2) / (trials : ℚ), res.2)

/-! ## `calc_gto.py`: action descriptors, normalizer and decision policy -/

/-- `_extract_min_raise` of `calc_gto.py`: from the first action whose
lowercased text contains both "raise" and "min" and has digits after the
first "min", the number formed by those digits; 0 otherwise. -/
def extract_min_raise : List String → Nat
  | [] => 0
  | act :: rest =>
      let lower := pyLower act
      if strHas lower "raise" && strHas lower "min" then
        match afterSeg "min".toList lower.toList with
        | some suffix => if hazDigit suffix then digitsVal suffix else extract_min_raise rest
        | none => extract_min_raise rest
      else extract_min_raise rest

/-- `_extract_call_amount` of `calc_gto.py`: from the first action whose
lowercased text contains "call" and any digits, the number formed by all its
digits; 0 otherwise. -/
def extract_call_amount : List String → Nat
  | [] => 0
  | act :: rest =>
      let lower := pyLower act
      if strHas lower "call" then
        if hazDigit lower.toList then digitsVal lower.toList
        else extract_call_amount rest
      else extract_call_amount rest

/-- A point recommendation or normalized decision: an action name and an
amount, mirroring the source dictionaries with keys "action" and "amount". -/
structure Rec : Type where
  action : String
  amount : Int
deriving DecidableEq, Repr

/-- `_normalize_recommended_action` of `calc_gto.py`. The recommended action
is lowercased and its amount clamped to [0, max(0, stack)]; then each action
family degrades through its fixed fallback chain; a branch that finds no
legal option falls through to the default fallback (check, then fold, then
the clamped original). -/
def normalize_recommended_action (rec : Rec) (actions : List String)
    (stack : Int) : Rec :=
  let action := pyLower rec.action
  let amount : Int := max 0 (min rec.amount (max 0 stack))
  let normalized : Rec := ⟨action, amount⟩
  let available := actions.map pyLower
  let anyCheck := available.any (fun a => startsWithPy a "check")
  let anyCall := available.any (fun a => strHas a "call")
  let anyRaise := available.any (fun a => strHas a "raise")
  let anyAllIn := available.any (fun a => strHas a "all-in")
  let foldAvail := available.contains "fold"
  let branch : Option Rec :=
    if action = "check" then
      if anyCheck then some ⟨"check", 0⟩
      else if foldAvail then some ⟨"fold", 0⟩
      else none
    else if action = "call" then
      if anyCall then some ⟨"call", (extract_call_amount actions : Int)⟩
      else if anyCheck then some ⟨"check", 0⟩
      else if foldAvail then some ⟨"fold", 0⟩
      else none
    else if action = "raise" then
      if anyRaise then
        some ⟨"raise", min (max amount (extract_min_raise actions : Int)) stack⟩
      else if anyCall then some ⟨"call", (extract_call_amount actions : Int)⟩
      else if anyCheck then some ⟨"check", 0⟩
      else if foldAvail then some ⟨"fold", 0⟩
      else none
    else if action = "all_in" ∨ action = "all-in" then
      if anyAllIn then some ⟨"all_in", stack⟩
      else if anyRaise then
        some ⟨"raise", max (extract_min_raise actions : Int) (min stack amount)⟩
      else if anyCall then some ⟨"call", (extract_call_amount actions : Int)⟩
      else if anyCheck then some ⟨"check", 0⟩
      else if foldAvail then some ⟨"fold", 0⟩
      else none
    else none
  match branch with
  | some r => r
  | none =>
      if anyCheck then ⟨"check", 0⟩
      else if foldAvail then ⟨"fold", 0⟩
      else normalized

/-- The pot-odds value computed inside `calc_gto`:
0.0 when nothing is to call, else `to_call / max(1, pot + to_call)`. -/
def gtoPotOdds (pot to_call : Nat) : ℚ :=
  if to_call = 0 then 0 else (to_call : ℚ) / ((max 1 (pot + to_call) : Nat) : ℚ)

/-- The stack-to-pot value computed inside `calc_gto`: `none` embeds the
source's `float("inf")` when the pot is empty, else `stack / max(1, pot)`. -/
def gtoSpr (stack pot : Nat) : Option ℚ :=
  if pot = 0 then none else some ((stack : ℚ) / ((max 1 pot : Nat) : ℚ))

/-- The source's comparison `spr <= 2.0`, false for the infinite value. -/
def sprLE2 (spr : Option ℚ) : Bool :=
  match spr with
  | none => false
  | some s => decide (s ≤ 2)

/-- The point-recommendation block of `calc_gto` (lines 354-410 of
`calc_gto.py`), as a function of the estimated equity and the call/stack
context. Bet fractions of the pot (0.6, 0.4) and of the call amount
(2.5, 1.5) are embedded as exact rational floors; the 2.5 and 1.5 multiples
agree exactly with the source's float arithmetic on integer inputs below
2^51, and the pot fractions agree except at astronomically large pots. -/
def gtoRecommendation (equity : ℚ) (pot to_call stack : Nat)
    (actions : List String) : Rec :=
  let pot_odds := gtoPotOdds pot to_call
  let spr := gtoSpr stack pot
  if to_call = 0 then
    if 13 / 20 ≤ equity then
      let minRaise := extract_min_raise actions
      let betSize :=
        min (if 0 < minRaise then max minRaise (3 * (pot + 1) / 5)
             else 3 * (pot + 1) / 5) stack
      ⟨"raise", (betSize : Int)⟩
    else if 1 / 2 ≤ equity then
      let minRaise := extract_min_raise actions
      let betSize :=
        min (if 0 < minRaise then max minRaise (2 * (pot + 1) / 5)
             else 2 * (pot + 1) / 5) stack
      if actions.any (fun a => strHas (pyLower a) "raise") then
        ⟨"raise", (betSize : Int)⟩
      else ⟨"check", 0⟩
    else ⟨"check", 0⟩
  else
    if max (pot_odds + 1 / 20) (1 / 2) < equity then
      let minRaise := extract_min_raise actions
      let callAmtE := extract_call_amount actions
      let call_amt := if callAmtE ≠ 0 then callAmtE else to_call
      if 7 / 10 ≤ equity ∨ sprLE2 spr then
        if actions.any (fun a => strHas (pyLower a) "all-in") then
          ⟨"all_in", (stack : Int)⟩
        else
          let tOr := if to_call ≠ 0 then to_call else call_amt
          let raiseAmt :=
            min (if 0 < minRaise then max minRaise (5 * tOr / 2)
                 else 5 * tOr / 2) stack
          ⟨"raise", (raiseAmt : Int)⟩
      else
        let tOr := if to_call ≠ 0 then to_call else call_amt
        let raiseAmt0 := max (extract_min_raise actions) (3 * tOr / 2)
        let raiseAmt := if 0 < raiseAmt0 then min raiseAmt0 stack else 0
        if 0 < raiseAmt ∧ (actions.any fun a => strHas (pyLower a) "raise") ∧
            3 / 20 < equity - pot_odds then
          ⟨"raise", (raiseAmt : Int)⟩
        else ⟨"call", ((if 0 < call_amt then call_amt else to_call) : Int)⟩
    else if |equity - pot_odds| ≤ 3 / 100 ∧
        actions.any (fun a => strHas (pyLower a) "call") then
      let callAmtE := extract_call_amount actions
      ⟨"call", ((if callAmtE ≠ 0 then callAmtE else to_call) : Int)⟩
    else ⟨"fold", 0⟩

/-- The five strategy weights (fold, check, call, raise, all_in) assigned by
the corresponding branch of `calc_gto`. -/
def gtoStrategyWeights (equity : ℚ) (pot to_call stack : Nat)
    (actions : List String) : ℚ × ℚ × ℚ × ℚ × ℚ :=
  let pot_odds := gtoPotOdds pot to_call
  let spr := gtoSpr stack pot
  if to_call = 0 then
    if 13 / 20 ≤ equity then (0, 1 / 4, 0, 13 / 20, 1 / 10)
    else if 1 / 2 ≤ equity then (0, 7 / 10, 0, 3 / 10, 0)
    else (0, 19 / 20, 0, 1 / 20, 0)
  else
    if max (pot_odds + 1 / 20) (1 / 2) < equity then
      if 7 / 10 ≤ equity ∨ sprLE2 spr then
        if actions.any (fun a => strHas (pyLower a) "all-in") then
          (0, 0, 1 / 5, 3 / 10, 1 / 2)
        else (0, 0, 3 / 10, 7 / 10, 0)
      else (0, 0, 4 / 5, 1 / 5, 0)
    else if |equity - pot_odds| ≤ 3 / 100 ∧
        actions.any (fun a => strHas (pyLower a) "call") then
      (1 / 2, 0, 1 / 2, 0, 0)
    else (19 / 20, 0, 1 / 20, 0, 0)

/-- Python `round(q, k)` on the embedded rationals (the source rounds floats
half-to-even; on the rationals we use the integer rounding of Mathlib, which
can differ only on exact midpoints of the float representation — no theorem
below depends on a midpoint). -/
def pyRound (q : ℚ) (k : Nat) : ℚ :=
  ((round (q * 10 ^ k) : Int) : ℚ) / 10 ^ k

/-- The strategy dictionary returned by `calc_gto`: zero-weight actions are
dropped and the remainder renormalized and rounded to three places. -/
def gtoStrategyOut (equity : ℚ) (pot to_call stack : Nat)
    (actions : List String) : List (String × ℚ) :=
  let w := gtoStrategyWeights equity pot to_call stack actions
  let entries := [("fold", w.1), ("check", w.2.1), ("call", w.2.2.1),
                  ("raise", w.2.2.2.1), ("all_in", w.2.2.2.2)]
  let positive := entries.filter (fun e => decide (0 < e.2))
  let total0 := (positive.map (·.2)).sum
  let total := if total0 = 0 then 1 else total0
  positive.map (fun e => (e.1, pyRound (e.2 / total) 3))

/-- The result dictionary of `calc_gto` (the free-text "reasoning" entry is
not modelled; the diverging fallback rationale is visible in the strategy
and recommendation fields). -/
structure GtoResult : Type where
  equity : ℚ
  pot_odds : ℚ
  spr : Option ℚ
  strategy : List (String × ℚ)
  recommended : Rec
deriving DecidableEq, Repr

/-- The card parsing step at the top of `calc_gto` (lines 333-335): parse
the hole cards, then the community cards; the first failure aborts. -/
def gtoParseCards (your_cards community : List String) :
    Except String (List Card × List Card) := do
  let h ← your_cards.mapM parse_card_string
  let b ← community.mapM parse_card_string
  pure (h, b)

/-- `calc_gto` of `calc_gto.py` (the `phase` argument only feeds the
unmodelled reasoning text and is omitted). Card parsing failure takes the
safe-default path without touching the random stream; otherwise the equity
is estimated by Monte Carlo and the policy recommendation is normalized
against the available actions. -/
def calc_gto (your_cards community : List String) (pot to_call : Nat)
    (actions : List String) (num_players stack iterations : Nat) (r : Rng) :
    GtoResult × Rng :=
  match gtoParseCards your_cards community with
  | .error _ =>
      let safeAction : Rec := ⟨if to_call = 0 then "check" else "fold", 0⟩
      ({ equity := 0
         pot_odds := gtoPotOdds pot to_call
         spr := gtoSpr stack pot
         strategy := [(safeAction.action, 1)]
         recommended := normalize_recommended_action safeAction actions (stack : Int) }, r)
  | .ok (hole, board) =>
      let numOpponents := max 1 (num_players - 1)
      let eq_r := estimate_equity hole board numOpponents iterations r
      let equity := eq_r.1
      ({ equity := pyRound equity 4
         pot_odds := pyRound (gtoPotOdds pot to_call) 4
         spr := (gtoSpr stack pot).map (fun s => pyRound s 2)
         strategy := gtoStrategyOut equity pot to_call stack actions
         recommended := normalize_recommended_action
           (gtoRecommendation equity pot to_call stack actions) actions (stack : Int) },
       eq_r.2)

/-! ## `pokerkittool.py` (team2): card normalization, validation and the
Monte Carlo equity/pot-odds tool -/

/-- The `rank_map` of `pokerkit_tool`: canonical single-character ranks. -/
def pkRankMap : List (String × String) :=
  [("10", "T"), ("T", "T"), ("t", "T"), ("J", "J"), ("j", "J"),
   ("Q", "Q"), ("q", "Q"), ("K", "K"), ("k", "K"), ("A", "A"), ("a", "A"),
   ("2", "2"), ("3", "3"), ("4", "4"), ("5", "5"), ("6", "6"), ("7", "7"),
   ("8", "8"), ("9", "9")]

/-- The `suit_map` of `pokerkit_tool`: letters and glyphs to s/h/d/c. -/
def pkSuitMap : List (Char × Char) :=
  [('s', 's'), ('♠', 's'), ('♤', 's'), ('h', 'h'), ('♥', 'h'), ('♡', 'h'),
   ('d', 'd'), ('♦', 'd'), ('♢', 'd'), ('c', 'c'), ('♣', 'c'), ('♧', 'c')]

/-- The validation pattern of `pokerkit_tool`: exactly one canonical rank
character followed by one canonical suit character. -/
def pkPatternOK (s : String) : Bool :=
  match s.toList with
  | [r, su] => ("23456789TJQKA".toList).contains r && ("shdc".toList).contains su
  | _ => false

/-- The per-card normalization of `pokerkit_tool` (lines 121-146): strip all
whitespace, require at least two characters, uppercase the rank part and
lowercase the final suit character, translate through the two maps, and
validate against the pattern; failures raise `ValueError` (embedded as
`Except.error`; the source's Japanese messages are abbreviated). -/
def pkNormalizeCard (card : String) : Except String String :=
  let cs := card.toList.filter (fun c => !c.isWhitespace)
  if cs.length < 2 then .error "card token shorter than two characters"
  else
    let rankSym := String.mk ((cs.dropLast).map Char.toUpper)
    let suitSym := (cs.getLast?.getD ' ').toLower
    let nRank := ((pkRankMap.find? (fun p => p.1 = rankSym)).map (·.2)).getD rankSym
    let nSuit := ((pkSuitMap.find? (fun p => p.1 = suitSym)).map (·.2)).getD suitSym
    let normalized := nRank ++ String.mk [nSuit]
    if pkPatternOK normalized then .ok normalized
    else .error "card token is not a valid rank-suit pair"

/-- The rank value of a canonical rank character. -/
def pkRankVal (c : Char) : Nat :=
  if c = 'T' then 10 else if c = 'J' then 11 else if c = 'Q' then 12
  else if c = 'K' then 13 else if c = 'A' then 14 else c.toNat - 48

/-- The suit of a canonical suit character. -/
def pkSuitVal (c : Char) : Suit :=
  if c = 'h' then .hearts else if c = 'd' then .diamonds
  else if c = 'c' then .clubs else .spades

/-- A validated two-character token as a `Card`. -/
def pkTokenToCard (s : String) : Card :=
  match s.toList with
  | [r, su] => ⟨pkRankVal r, pkSuitVal su⟩
  | _ => ⟨0, .spades⟩

/-- Modelled from the spec: the external `pokerkit` `Deck.STANDARD` 52-card
deck; the iteration order is chosen canonically (ranks ascending, suits
c/d/h/s) — no theorem below depends on the order, only on the membership. -/
def pkDeckStandard : List Card :=
  ((List.range 13).map
    (fun i => [(⟨i + 2, .clubs⟩ : Card), ⟨i + 2, .diamonds⟩,
               ⟨i + 2, .hearts⟩, ⟨i + 2, .spades⟩])).flatten

/-- Per-trial hero share as computed by `pokerkit_tool` lines 197-201: the
best hand is the maximum of hero and opponents, `winners` counts the hands
equal to it, and the hero receives `1/winners` when the hero's hand equals
the best. -/
def pkTrialShare (hero : Nat) (opps : List Nat) : ℚ :=
  let hands := hero :: opps
  let best := hands.foldr Nat.max 0
  let winners := hands.count best
  if hero = best then 1 / (winners : ℚ) else 0

/-- Spec section 4.3, steps 4-5, stated from the specification's words: the
maximum evaluated hand among hero and all opponents; `winners` = number of
hands tying for that maximum; the hero is credited `1/winners` when among
the maximal hands and 0 otherwise. -/
def specTrialCredit (hero : Nat) (opps : List Nat) : ℚ :=
  let m := (hero :: opps).foldr Nat.max 0
  let winners := (hero :: opps).count m
  if hero = m then 1 / (winners : ℚ) else 0

/-- Spec section 4.3, step 5: the equity is the sum of the per-trial credits
divided by the number of trials. -/
def specEquity (trials : List (Nat × List Nat)) (n : Nat) : ℚ :=
  ((trials.map (fun t => specTrialCredit t.1 t.2)).sum) / (n : ℚ)

/-- The Monte Carlo loop of `pokerkit_tool` (lines 179-201): each trial
draws `dn` cards without replacement from the remaining deck (failing like
`random.sample` when the deck is too small), deals consecutive pairs to the
opponents, completes the board with the rest, evaluates every hand against
the completed board and accumulates the hero's share. -/
def pkLoop (deck holeCards commCards : List Card) (numOpp dn : Nat) :
    Nat → ℚ → Rng → Except String (ℚ × Rng)
  | 0, acc, r => .ok (acc, r)
  | n + 1, acc, r =>
      match sampleCards dn deck r with
      | none => .error "sample larger than population"
      | some (draw, _, r') =>
          let oppHoles := pairUp (draw.take (2 * numOpp))
          let fullBoard := commCards ++ draw.drop (2 * numOpp)
          let heroHand := bestHandValue (holeCards ++ fullBoard)
          let oppHands := oppHoles.map (fun oh => bestHandValue (oh ++ fullBoard))
          pkLoop deck holeCards commCards numOpp dn n
            (acc + pkTrialShare heroHand oppHands) r'

/-- The per-trial evaluated hands (hero, opponents) of the `pokerkit_tool`
loop, in trial order, together with the final stream — the claim-side view
of the same sampling used to compare the accumulated equity with the
specification's per-trial credits. -/
def pkTrialHands (deck holeCards commCards : List Card) (numOpp dn : Nat) :
    Nat → Rng → List (Nat × List Nat) × Rng
  | 0, r => ([], r)
  | n + 1, r =>
      match sampleCards dn deck r with
      | none => ([], r)
      | some (draw, _, r') =>
          let oppHoles := pairUp (draw.take (2 * numOpp))
          let fullBoard := commCards ++ draw.drop (2 * numOpp)
          let heroHand := bestHandValue (holeCards ++ fullBoard)
          let oppHands := oppHoles.map (fun oh => bestHandValue (oh ++ fullBoard))
          let rest := pkTrialHands deck holeCards commCards numOpp dn n r'
          ((heroHand, oppHands) :: rest.1, rest.2)

/-- The remaining deck of `pokerkit_tool`: the standard deck minus known
cards. -/
def pkDeckRemain (holeCards commCards : List Card) : List Card :=
  pkDeckStandard.filter (fun c => decide (c ∉ holeCards ++ commCards))

/-- The simulation core of `pokerkit_tool` after validation: remaining deck,
draw size `2 * num_opponents + max(0, 5 - |community|)`, the Monte Carlo
loop, and the division of the accumulated share by the simulation count
(the source would divide 0.0 by zero if `simulations = 0`; the theorems
below therefore assume at least one simulation). -/
def pkSimulate (holeCards commCards : List Card) (numOpp simulations : Nat)
    (r : Rng) : Except String (ℚ × Rng) :=
  let deckRemain := pkDeckRemain holeCards commCards
  let dn := 2 * numOpp + (5 - commCards.length)
  match pkLoop deckRemain holeCards commCards numOpp dn simulations 0 r with
  | .error e => .error e
  | .ok (shareSum, r') => .ok (shareSum / (simulations : ℚ), r')

/-- `_required_equity` of `pokerkit_tool`: 0.0 when nothing is to call, else
`to_call / (pot_before + to_call)`. -/
def _required_equity (pot_before to_call : ℚ) : ℚ :=
  if to_call ≤ 0 then 0 else to_call / (pot_before + to_call)

/-- The pot-odds-as-X-to-1 helper of `pokerkit_tool` (source name
`_pot_odds_ratio`, renamed here): `none` embeds the source's `float("inf")`
when nothing is to call, else `pot_before / to_call`. -/
def pkPotOddsR (pot_before to_call : ℚ) : Option ℚ :=
  if to_call ≤ 0 then none else some (pot_before / to_call)

/-- `pokerkit_tool` of team2's `pokerkittool.py`: normalize and validate all
card tokens (any failure raises, embedded as `Except.error`), check the
count/opponent/duplicate constraints, run the Monte Carlo simulation and
return (equity, required equity, pot-odds X-to-1). Validation failures and
the deck-exhaustion failure leave the random stream untouched, as in the
source where the exception aborts the call. -/
def pokerkit_tool (hole_cards community_cards : List String)
    (num_opponents : Nat) (pot_before to_call : ℚ) (simulations : Nat)
    (r : Rng) : Except String (ℚ × ℚ × Option ℚ) × Rng :=
  match (hole_cards ++ community_cards).mapM pkNormalizeCard with
  | .error e => (.error e, r)
  | .ok normalized =>
      let holeTok := normalized.take hole_cards.length
      let commTok := normalized.drop hole_cards.length
      if holeTok.length ≠ 2 then (.error "hole cards must be exactly two", r)
      else if ¬ (commTok.length = 0 ∨ commTok.length = 3 ∨
          commTok.length = 4 ∨ commTok.length = 5) then
        (.error "community cards must number 0, 3, 4 or 5", r)
      else if num_opponents < 1 then (.error "num opponents must be at least 1", r)
      else if (holeTok ++ commTok).dedup.length ≠ (holeTok ++ commTok).length then
        (.error "duplicate cards", r)
      else
        match pkSimulate (holeTok.map pkTokenToCard) (commTok.map pkTokenToCard)
            num_opponents simulations r with
        | .error e => (.error e, r)
        | .ok (equity, r') =>
            (.ok (equity, _required_equity pot_before to_call,
              pkPotOddsR pot_before to_call), r')

/-! ## `pokerkit_utils.py` (team3): truncating hand strength -/

/-- `create_full_hand_string` of `pokerkit_utils.py`, at the card level (each
card is one two-character token, so the source's 10-character truncation is a
five-card truncation): fewer than five cards are returned as-is, more than
five are cut to the first five. -/
def create_full_hand_string (hole community : List Card) : List Card :=
  let all := hole ++ community
  if all.length < 5 then all else all.take 5

/-- The display category of a packed hand value: the category nibble, with a
14-high straight flush distinguished as 9 (royal flush). -/
def displayCodeOfValue (v : Nat) : Nat :=
  let cat := v / 16 ^ 5
  if cat = 8 ∧ (v / 16 ^ 4) % 16 = 14 then 9 else cat

/-- Modelled from the spec: the category label of the external
`str(pokerkit.StandardHighHand(...))`, which the source matches substrings
against. -/
def handName (code : Nat) : String :=
  if code = 9 then "Royal flush"
  else if code = 8 then "Straight flush"
  else if code = 7 then "Four of a kind"
  else if code = 6 then "Full house"
  else if code = 5 then "Flush"
  else if code = 4 then "Straight"
  else if code = 3 then "Three of a kind"
  else if code = 2 then "Two pair"
  else if code = 1 then "One pair"
  else "High card"

/-- The substring ladder of `calculate_hand_strength` (lines 162-181),
mapping the hand description to the strength scale 1.0 .. 0.25. -/
def strengthChain (hand_str : String) : ℚ :=
  if strHas hand_str "Royal flush" then 1
  else if strHas hand_str "Straight flush" then 19 / 20
  else if strHas hand_str "Four of a kind" then 9 / 10
  else if strHas hand_str "Full house" then 17 / 20
  else if strHas hand_str "Flush" then 3 / 4
  else if strHas hand_str "Straight" then 13 / 20
  else if strHas hand_str "Three of a kind" then 11 / 20
  else if strHas hand_str "Two pair" then 9 / 20
  else if strHas hand_str "One pair" then 7 / 20
  else 1 / 4

/-- `calculate_hand_strength` of `pokerkit_utils.py`: fewer than two hole
cards give 0.0; the (possibly truncated) five-card hand is evaluated and
scored through the substring ladder; a malformed or duplicate-card hand makes
the external constructor raise, which the source's `except` turns into 0.0. -/
def calculate_hand_strength (hole community : List Card) : ℚ :=
  if hole.length < 2 then 0
  else
    let full := create_full_hand_string hole community
    if full.length ≠ 5 ∨ ¬ full.Nodup then 0
    else strengthChain (handName (displayCodeOfValue (handValue5 full)))

/-- The claim-side strength table indexed by display category (the same
scale the source's ladder encodes). -/
def strengthOfCode (code : Nat) : ℚ :=
  if code = 9 then 1
  else if code = 8 then 19 / 20
  else if code = 7 then 9 / 10
  else if code = 6 then 17 / 20
  else if code = 5 then 3 / 4
  else if code = 4 then 13 / 20
  else if code = 3 then 11 / 20
  else if code = 2 then 9 / 20
  else if code = 1 then 7 / 20
  else 1 / 4

/-- Claim C4's reference semantics, stated from the claim's words: the
strength of the best five-card selection from all the cards. -/
def specHandStrength (hole community : List Card) : ℚ :=
  strengthOfCode (displayCodeOfValue (bestHandValue (hole ++ community)))

/-! ## The two pot-odds calculators -/

/-- `calculate_pot_odds` of team3's `pot_odds_calculator.py` (the JSON
parsing of the state argument is outside the embedding; the three used fields
are taken directly): returns (pot_odds, spr), where the SPR divides the
stack by pot + to_call and uses the finite sentinel 999.0 when that total
is zero. -/
def t3_calculate_pot_odds (pot to_call your_chips : Nat) : ℚ × ℚ :=
  let pot_after := pot + to_call
  let pot_odds := if 0 < pot_after ∧ 0 < to_call then (to_call : ℚ) / (pot_after : ℚ) else 0
  let spr := if 0 < pot_after then (your_chips : ℚ) / (pot_after : ℚ) else 999
  (pot_odds, spr)

/-- `calculate_pot_odds` of team2's `pot_odds_calculator_agent/tool.py`:
(expected value, required equity, reverse-implied expected value, implied
multiplier). The divisions are exact on the rationals; the source's float
arithmetic agrees at every input appearing in a theorem below. -/
def calculate_pot_odds (pot_size call_amount equity : ℚ) : ℚ × ℚ × ℚ × ℚ :=
  let total := pot_size + call_amount
  let expected_value := equity * total - call_amount
  let req := call_amount / total
  let reverse_expected_value := equity * total - call_amount
  let basic := call_amount / (pot_size + call_amount)
  let implied := if 0 < total then call_amount / total else basic
  let mult := if 0 < implied then basic / implied else 1
  (expected_value, req, reverse_expected_value, mult)

/-! ## Fixed concrete inputs used by witnesses and counterexamples -/

/-- The all-zero random stream at position 0. -/
def rng0 : Rng := ⟨fun _ => 0, 0⟩

/-- A weak hero hole: 2 and 3 of hearts. -/
def tieHole : List Card := [⟨2, .hearts⟩, ⟨3, .hearts⟩]

/-- A board that is itself a royal flush, forcing every showdown into a tie. -/
def tieBoard : List Card :=
  [⟨10, .spades⟩, ⟨11, .spades⟩, ⟨12, .spades⟩, ⟨13, .spades⟩, ⟨14, .spades⟩]

/-- The common evaluated hand value when the board plays: the board royal
flush. -/
def tieVal : Nat := evaluate_hand tieHole tieBoard
theorem sampleCards_spec (k : Nat) :
    ∀ (deck : List Card) (r : Rng), k ≤ deck.length →
      ∃ ds rest r', sampleCards k deck r = some (ds, rest, r') ∧
        ds.length = k ∧ rest.length = deck.length - k ∧
        r'.seq = r.seq ∧ r'.pos = r.pos + k := by
  induction k with
  | zero =>
      intro deck r _
      exact ⟨[], deck, r, rfl, rfl, by simp, rfl, rfl⟩
  | succ k ih =>
      intro deck r hk
      have hlen : deck.length ≠ 0 := by omega
      have hi : (r.seq r.pos) % deck.length < deck.length :=
        Nat.mod_lt _ (Nat.pos_of_ne_zero hlen)
      have hget : deck.get? ((r.seq r.pos) % deck.length)
          = some (deck.get ⟨(r.seq r.pos) % deck.length, hi⟩) :=
        List.get?_eq_get hi
      have herase : (deck.eraseIdx ((r.seq r.pos) % deck.length)).length
          = deck.length - 1 := by
        rw [List.length_eraseIdx]
        simp [hi]
      obtain ⟨ds, rest, r', heq, hds, hrest, hseq, hpos⟩ :=
        ih (deck.eraseIdx ((r.seq r.pos) % deck.length)) ⟨r.seq, r.pos + 1⟩
          (by omega)
      have hp : (⟨r.seq, r.pos + 1⟩ : Rng).pos = r.pos + 1 := rfl
      refine ⟨deck.get ⟨(r.seq r.pos) % deck.length, hi⟩ :: ds, rest, r', ?_,
        by simp [hds], by rw [hrest, herase]; omega, hseq,
        by rw [hpos, hp]; omega⟩
      simp only [sampleCards, if_neg hlen, Rng.next, hget, heq]

theorem sampleCards_none (k : Nat) :
    ∀ (deck : List Card) (r : Rng), deck.length < k →
      sampleCards k deck r = none := by
  induction k with
  | zero => intro deck r h; omega
  | succ k ih =>
      intro deck r h
      by_cases hlen : deck.length = 0
      · simp [sampleCards, hlen]
      · have hi : (r.seq r.pos) % deck.length < deck.length :=
          Nat.mod_lt _ (Nat.pos_of_ne_zero hlen)
        have hget : deck.get? ((r.seq r.pos) % deck.length)
            = some (deck.get ⟨(r.seq r.pos) % deck.length, hi⟩) :=
          List.get?_eq_get hi
        have herase : (deck.eraseIdx ((r.seq r.pos) % deck.length)).length
            = deck.length - 1 := by
          rw [List.length_eraseIdx]
          simp [hi]
        have hrec := ih (deck.eraseIdx ((r.seq r.pos) % deck.length))
          ⟨r.seq, r.pos + 1⟩ (by omega)
        simp only [sampleCards, if_neg hlen, Rng.next, hget, hrec]

theorem shuffleCards_spec (deck : List Card) (r : Rng) :
    (shuffleCards deck r).1.length = deck.length ∧
      (shuffleCards deck r).2.seq = r.seq ∧
      (shuffleCards deck r).2.pos = r.pos + deck.length := by
  obtain ⟨ds, rest, r', heq, hds, hrest, hseq, hpos⟩ :=
    sampleCards_spec deck.length deck r (le_refl _)
  simp [shuffleCards, heq, hds, hseq, hpos]


/-! ## Shared lemmas -/

theorem pairUp_length : ∀ l : List Card, (pairUp l).length = l.length / 2
  | [] => rfl
  | [_] => by simp [pairUp]
  | a :: b :: t => by
      have ih := pairUp_length t
      simp only [pairUp, List.length_cons, ih]
      omega

theorem foldrMax_all_eq :
    ∀ (L : List Nat) (v : Nat), L ≠ [] → (∀ x ∈ L, x = v) →
      L.foldr Nat.max 0 = v
  | [], v, h, _ => absurd rfl h
  | [a], v, _, hall => by
      simp only [List.foldr_cons, List.foldr_nil, Nat.max_zero]
      exact hall a (by simp)
  | a :: b :: t, v, _, hall => by
      have ih := foldrMax_all_eq (b :: t) v (by simp)
        (fun x hx => hall x (List.mem_cons_of_mem _ hx))
      simp only [List.foldr_cons] at ih ⊢
      rw [ih, hall a (by simp)]
      exact Nat.max_self v

theorem bestHandValue_five (l : List Card) (h : l.length = 5) :
    bestHandValue l = handValue5 l := by
  unfold bestHandValue
  apply foldrMax_all_eq
  · apply List.ne_nil_of_mem (a := handValue5 l)
    apply List.mem_map_of_mem
    rw [List.mem_filter]
    exact ⟨List.mem_sublists.2 (List.Sublist.refl l), by simp [h]⟩
  · intro x hx
    obtain ⟨s, hs, rfl⟩ := List.mem_map.1 hx
    obtain ⟨hs1, hs2⟩ := List.mem_filter.1 hs
    have hsub : s.Sublist l := List.mem_sublists.1 hs1
    have hlen : s.length = 5 := by simpa using hs2
    rw [hsub.eq_of_length (by rw [hlen, h])]

set_option maxHeartbeats 1000000 in
theorem strengthChain_handName (k : Nat) :
    strengthChain (handName k) = strengthOfCode k := by
  rcases Nat.lt_or_ge k 10 with h | h
  · interval_cases k <;> with_unfolding_all rfl
  · obtain ⟨n, rfl⟩ : ∃ n, k = n + 10 := ⟨k - 10, by omega⟩
    have h1 : handName (n + 10) = "High card" := by
      simp only [handName]
      split_ifs <;> first | rfl | omega
    have h2 : strengthOfCode (n + 10) = 1 / 4 := by
      simp only [strengthOfCode]
      split_ifs <;> first | rfl | omega
    rw [h1, h2]
    with_unfolding_all rfl

theorem pkTrialShare_eq_specTrialCredit (h : Nat) (o : List Nat) :
    pkTrialShare h o = specTrialCredit h o := rfl

theorem pkLoop_spec (deck holeCards commCards : List Card) (numOpp dn : Nat)
    (hdn : dn ≤ deck.length) :
    ∀ (n : Nat) (acc : ℚ) (r : Rng),
      pkLoop deck holeCards commCards numOpp dn n acc r =
        .ok (acc + ((pkTrialHands deck holeCards commCards numOpp dn n r).1.map
              (fun t => specTrialCredit t.1 t.2)).sum,
          (pkTrialHands deck holeCards commCards numOpp dn n r).2) := by
  intro n
  induction n with
  | zero => intro acc r; simp [pkLoop, pkTrialHands]
  | succ n ih =>
      intro acc r
      obtain ⟨ds, rest, r', heq, -, -, -, -⟩ := sampleCards_spec dn deck r hdn
      simp only [pkLoop, pkTrialHands, heq, ih, List.map_cons, List.sum_cons,
        pkTrialShare_eq_specTrialCredit]
      rw [add_assoc]

theorem pkLoop_rng (deck holeCards commCards : List Card) (numOpp dn : Nat) :
    ∀ (n : Nat) (acc : ℚ) (r : Rng) (q : ℚ) (r' : Rng),
      pkLoop deck holeCards commCards numOpp dn n acc r = .ok (q, r') →
      r'.seq = r.seq ∧ r'.pos = r.pos + n * dn := by
  intro n
  induction n with
  | zero =>
      intro acc r q r' h
      simp only [pkLoop, Except.ok.injEq, Prod.mk.injEq] at h
      rw [← h.2]
      exact ⟨rfl, by omega⟩
  | succ n ih =>
      intro acc r q r' h
      by_cases hle : dn ≤ deck.length
      · obtain ⟨ds, rest, rr, heq, -, -, hseq, hpos⟩ :=
          sampleCards_spec dn deck r hle
        simp only [pkLoop, heq] at h
        obtain ⟨h1, h2⟩ := ih _ _ _ _ h
        refine ⟨by rw [h1, hseq], ?_⟩
        rw [h2, hpos, Nat.succ_mul]
        omega
      · rw [show pkLoop deck holeCards commCards numOpp dn (n + 1) acc r =
            .error "sample larger than population" by
              simp only [pkLoop, sampleCards_none dn deck r (by omega)]] at h
        cases h

theorem estLoopGto_short (hole community remaining : List Card) (numOpp : Nat)
    (hopp : 1 ≤ numOpp) (hcomm : community.length ≤ 5)
    (hshort : remaining.length < 2 * numOpp + (5 - community.length)) :
    ∀ (n : Nat) (st : Nat × Nat × Nat) (r : Rng),
      (estLoopGto hole community remaining numOpp n st r).1 = st := by
  intro n
  induction n with
  | zero => intro st r; rfl
  | succ n ih =>
      intro st r
      rcases hSS : shuffleCards remaining r with ⟨shuffled, r1⟩
      have hlen : shuffled.length = remaining.length := by
        have h := (shuffleCards_spec remaining r).1
        rw [hSS] at h
        exact h
      simp only [estLoopGto, sample_opponents_hands, hSS]
      by_cases hlt : shuffled.length < 2 * numOpp
      · rw [if_pos hlt]
        simp only [List.length_nil]
        rw [if_pos (by omega)]
        exact ih st r1
      · rw [if_neg hlt]
        have hpl : (pairUp (shuffled.take (2 * numOpp))).length = numOpp := by
          rw [pairUp_length, List.length_take]
          omega
        simp only [hpl]
        rw [if_neg (by omega)]
        have hcommlt : community.length < 5 := by
          rcases Nat.lt_or_ge community.length 5 with h | h
          · exact h
          · omega
        have hdrop : (shuffled.drop (2 * numOpp)).length
            = shuffled.length - 2 * numOpp := List.length_drop _ _
        have hcb : complete_board_randomly community (shuffled.drop (2 * numOpp)) r1
            = (community, shuffled.drop (2 * numOpp), r1) := by
          simp only [complete_board_randomly]
          rw [if_neg (by omega), if_pos (by omega)]
        simp only [hcb]
        rw [if_pos (by omega)]
        exact ih st r1

/-! ## Claim C6 -/

/-- C6: the pot-odds identities hold exactly: `_required_equity` at
pot_before = 80, to_call = 20 is 0.2, and the expected value computed by
`calculate_pot_odds` at equity 0.3, pot 80, call 20 is exactly 10, with the
expected value given by equity * (pot_before + to_call) - to_call for all
inputs. -/
theorem C6_pot_odds_identities :
    _required_equity 80 20 = 1 / 5 ∧
    (calculate_pot_odds 80 20 (3 / 10)).1 = 10 ∧
    ∀ pot_size call_amount equity : ℚ,
      (calculate_pot_odds pot_size call_amount equity).1
        = equity * (pot_size + call_amount) - call_amount :=
  ⟨by with_unfolding_all rfl, by with_unfolding_all rfl, fun _ _ _ => rfl⟩

/-! ## Claim C7 -/

/-- C7 as stated is false: at pot = 0, `calc_gto` sets the SPR to the
non-finite `float("inf")` (embedded as `none`), not to a finite sentinel;
and team3's `calculate_pot_odds` divides the stack by pot + to_call, so at
stack 200, pot 100, to_call 100 it returns 1 although stack / pot = 2. -/
theorem C7_counterexample :
    gtoSpr 100 0 = none ∧
    (t3_calculate_pot_odds 100 100 200).2 = 1 ∧
    (200 : ℚ) / 100 = 2 ∧ (1 : ℚ) ≠ 2 :=
  ⟨rfl, by with_unfolding_all rfl, by norm_num, by norm_num⟩

/-- C7 amended: `calc_gto`'s SPR equals stack / pot whenever pot ≥ 1 and is
the non-finite infinity marker at pot = 0; team3's SPR equals
stack / (pot + to_call) whenever that sum is positive — so it matches
stack / pot only when to_call = 0 — and is the finite sentinel 999.0 when
pot + to_call = 0. Neither computation divides by zero. -/
theorem C7_spr_amended :
    (∀ stack pot : Nat, 1 ≤ pot →
      gtoSpr stack pot = some ((stack : ℚ) / (pot : ℚ))) ∧
    (∀ stack : Nat, gtoSpr stack 0 = none) ∧
    (∀ pot to_call stack : Nat, 1 ≤ pot + to_call →
      (t3_calculate_pot_odds pot to_call stack).2
        = (stack : ℚ) / (((pot + to_call : Nat)) : ℚ)) ∧
    ∀ stack : Nat, (t3_calculate_pot_odds 0 0 stack).2 = 999 := by
  refine ⟨?_, ?_, ?_, ?_⟩
  · intro stack pot h
    simp only [gtoSpr]
    rw [if_neg (by omega), Nat.max_eq_right h]
  · intro stack; simp [gtoSpr]
  · intro pot to_call stack h
    simp only [t3_calculate_pot_odds]
    rw [if_pos (by omega)]
  · intro stack; simp [t3_calculate_pot_odds]

/-- Witness for C7: concrete instances of each proved clause. -/
theorem C7_spr_amended_witness :
    ((1 : Nat) ≤ 50 ∧ gtoSpr 300 50 = some ((300 : ℚ) / (50 : ℚ))) ∧
    ((1 : Nat) ≤ 40 + 10 ∧
      (t3_calculate_pot_odds 40 10 200).2 = (200 : ℚ) / (((40 + 10 : Nat)) : ℚ)) :=
  ⟨⟨by decide, C7_spr_amended.1 300 50 (by decide)⟩,
   ⟨by decide, C7_spr_amended.2.2.1 40 10 200 (by decide)⟩⟩

/-! ## Claim C2 -/

/-- C2: at the failing input — a call recommendation with legal actions
["fold", "call (200)"] and a stack of only 100 — the normalizer returns the
call amount 200 extracted from the action text without clamping it to the
stack, contradicting its own docstring "Clamp amounts (>=0, <= stack)". -/
theorem C2_call_amount_unclamped :
    normalize_recommended_action ⟨"call", 0⟩ ["fold", "call (200)"] 100
      = ⟨"call", 200⟩ ∧ ¬ ((200 : Int) ≤ 100) :=
  ⟨by with_unfolding_all rfl, by decide⟩

/-! ## Claim C10 -/

/-- C10 as stated is false in one detail: with an empty legal-action list the
normalizer returns the lowercased recommended action, not the original
string — "FOLD" comes back as "fold". -/
theorem C10_counterexample :
    normalize_recommended_action ⟨"FOLD", 5⟩ [] 10 = ⟨"fold", 5⟩ ∧
    ("fold" : String) ≠ "FOLD" :=
  ⟨by with_unfolding_all rfl, by decide⟩

/-- C10 amended: the normalizer is total, and on an empty legal-action list
it returns the lowercased original action with the amount clamped to
[0, stack] (for any nonnegative stack), even though that action is not in
the (empty) legal set. -/
theorem C10_empty_actions_amended (rec : Rec) (stack : Int) (hs : 0 ≤ stack) :
    normalize_recommended_action rec [] stack
      = ⟨pyLower rec.action, max 0 (min rec.amount stack)⟩ := by
  have hmax : max (0 : Int) stack = stack := max_eq_right hs
  simp only [normalize_recommended_action, List.map_nil, List.any_nil, hmax]
  split_ifs <;> simp_all

/-- Witness for C10: the amended statement at a concrete uppercase raise
recommendation and stack 30. -/
theorem C10_empty_actions_amended_witness :
    (0 : Int) ≤ 30 ∧
    normalize_recommended_action ⟨"RAISE", 50⟩ [] 30
      = ⟨pyLower "RAISE", max 0 (min 50 30)⟩ :=
  ⟨by decide, C10_empty_actions_amended ⟨"RAISE", 50⟩ 30 (by decide)⟩

/-! ## Claim C3 -/

/-- C3 as stated is false: at equity 0.45 against required equity 0.2 (so
the 0.05 margin is cleared), with equity below 0.70 and SPR 12.5 above 2,
the policy recommends fold — the code additionally requires equity to exceed
0.5 before it will call. -/
theorem C3_counterexample :
    gtoPotOdds 80 20 + 1 / 20 < 9 / 20 ∧
    (9 : ℚ) / 20 < 7 / 10 ∧
    sprLE2 (gtoSpr 1000 80) = false ∧
    gtoRecommendation (9 / 20) 80 20 1000 ["fold", "call (20)", "raise (min 40)"]
      = ⟨"fold", 0⟩ := by
  refine ⟨?_, by norm_num, by with_unfolding_all rfl, by with_unfolding_all rfl⟩
  have h : gtoPotOdds 80 20 = 1 / 5 := by with_unfolding_all rfl
  rw [h]
  norm_num

/-- C3 amended: when facing a bet, if the equity exceeds
max(required_equity + 0.05, 0.5) but stays below 0.70 and the SPR is not at
most 2, the point recommendation is call or raise and never fold, and it is
raise only when equity - required_equity exceeds 0.15. -/
theorem C3_call_zone_amended (equity : ℚ) (pot to_call stack : Nat)
    (actions : List String) (ht : to_call ≠ 0)
    (h1 : max (gtoPotOdds pot to_call + 1 / 20) (1 / 2) < equity)
    (h2 : ¬ ((7 : ℚ) / 10 ≤ equity))
    (h3 : sprLE2 (gtoSpr stack pot) = false) :
    ((gtoRecommendation equity pot to_call stack actions).action = "call" ∨
      ((gtoRecommendation equity pot to_call stack actions).action = "raise" ∧
        3 / 20 < equity - gtoPotOdds pot to_call)) ∧
    (gtoRecommendation equity pot to_call stack actions).action ≠ "fold" := by
  simp only [gtoRecommendation]
  rw [if_neg ht, if_pos h1,
    if_neg (by rintro (h | h); exact h2 h; rw [h3] at h; cases h)]
  split_ifs <;>
    first
      | exact ⟨Or.inl rfl, by show ("call" : String) ≠ "fold"; decide⟩
      | (rename_i hcc
         exact ⟨Or.inr ⟨rfl, hcc.2.2⟩, by show ("raise" : String) ≠ "fold"; decide⟩)

/-- Witness for C3: the amended statement at equity 0.6, pot 100, call 20,
stack 1000, with fold/call/raise available. -/
theorem C3_call_zone_amended_witness :
    ((20 : Nat) ≠ 0 ∧
      max (gtoPotOdds 100 20 + 1 / 20) (1 / 2) < (3 / 5 : ℚ) ∧
      ¬ ((7 : ℚ) / 10 ≤ 3 / 5) ∧
      sprLE2 (gtoSpr 1000 100) = false) ∧
    (((gtoRecommendation (3 / 5) 100 20 1000
        ["fold", "call (20)", "raise (min 40)"]).action = "call" ∨
      ((gtoRecommendation (3 / 5) 100 20 1000
        ["fold", "call (20)", "raise (min 40)"]).action = "raise" ∧
        3 / 20 < 3 / 5 - gtoPotOdds 100 20)) ∧
      (gtoRecommendation (3 / 5) 100 20 1000
        ["fold", "call (20)", "raise (min 40)"]).action ≠ "fold") := by
  have hpo : gtoPotOdds 100 20 = 1 / 6 := by with_unfolding_all rfl
  refine ⟨⟨by decide, by rw [hpo]; norm_num, by norm_num,
    by with_unfolding_all rfl⟩, ?_⟩
  exact C3_call_zone_amended (3 / 5) 100 20 1000
    ["fold", "call (20)", "raise (min 40)"] (by decide)
    (by rw [hpo]; norm_num) (by norm_num) (by with_unfolding_all rfl)

/-! ## Claim C4 -/

/-- C4 as stated is false: with hole 2♠ 3♦ and community 4♥ 5♥ 6♥ 7♥ 8♥,
`calculate_hand_strength` evaluates only the first five cards (a 6-high
straight, strength 0.65), while the best five-card subset is the 8-high
straight flush (strength 0.95). -/
theorem C4_counterexample :
    calculate_hand_strength [⟨2, .spades⟩, ⟨3, .diamonds⟩]
        [⟨4, .hearts⟩, ⟨5, .hearts⟩, ⟨6, .hearts⟩, ⟨7, .hearts⟩, ⟨8, .hearts⟩]
      = 13 / 20 ∧
    specHandStrength [⟨2, .spades⟩, ⟨3, .diamonds⟩]
        [⟨4, .hearts⟩, ⟨5, .hearts⟩, ⟨6, .hearts⟩, ⟨7, .hearts⟩, ⟨8, .hearts⟩]
      = 19 / 20 ∧
    (13 / 20 : ℚ) ≠ 19 / 20 :=
  ⟨by with_unfolding_all rfl, by with_unfolding_all rfl, by norm_num⟩

/-- C4 amended: `create_full_hand_string` keeps only the first five of the
hole + community cards whenever at least five are present, so
`calculate_hand_strength` scores that fixed prefix rather than the best
subset; for exactly five distinct cards (2 hole + 3 community) the prefix is
the whole hand and the strength agrees with the best-subset strength. -/
theorem C4_truncation_amended :
    (∀ hole community : List Card, 5 ≤ (hole ++ community).length →
      create_full_hand_string hole community = (hole ++ community).take 5) ∧
    ∀ hole community : List Card, hole.length = 2 → community.length = 3 →
      (hole ++ community).Nodup →
      calculate_hand_strength hole community = specHandStrength hole community := by
  constructor
  · intro hole community h
    simp only [create_full_hand_string]
    rw [if_neg (by omega)]
  · intro hole community hh hc hnd
    have hlen : (hole ++ community).length = 5 := by simp [hh, hc]
    have hfull : create_full_hand_string hole community = hole ++ community := by
      simp only [create_full_hand_string]
      rw [if_neg (by omega), ← hlen, List.take_length]
    simp only [calculate_hand_strength, hfull]
    rw [if_neg (by omega), if_neg (by simp [hlen, hnd])]
    rw [strengthChain_handName]
    simp only [specHandStrength, bestHandValue_five _ hlen]

/-- Witness for C4: the truncation clause at a seven-card input and the
five-card agreement clause at a concrete flop hand. -/
theorem C4_truncation_amended_witness :
    (5 ≤ (([⟨14, .spades⟩, ⟨13, .spades⟩] ++
        [⟨2, .clubs⟩, ⟨7, .diamonds⟩, ⟨9, .hearts⟩, ⟨4, .clubs⟩, ⟨5, .clubs⟩] :
        List Card)).length ∧
      create_full_hand_string [⟨14, .spades⟩, ⟨13, .spades⟩]
          [⟨2, .clubs⟩, ⟨7, .diamonds⟩, ⟨9, .hearts⟩, ⟨4, .clubs⟩, ⟨5, .clubs⟩]
        = (([⟨14, .spades⟩, ⟨13, .spades⟩] ++
          [⟨2, .clubs⟩, ⟨7, .diamonds⟩, ⟨9, .hearts⟩, ⟨4, .clubs⟩, ⟨5, .clubs⟩] :
          List Card)).take 5) ∧
    calculate_hand_strength [⟨14, .spades⟩, ⟨13, .spades⟩]
        [⟨2, .clubs⟩, ⟨7, .diamonds⟩, ⟨9, .hearts⟩]
      = specHandStrength [⟨14, .spades⟩, ⟨13, .spades⟩]
          [⟨2, .clubs⟩, ⟨7, .diamonds⟩, ⟨9, .hearts⟩] :=
  ⟨⟨by decide, C4_truncation_amended.1 _ _ (by decide)⟩,
   C4_truncation_amended.2 _ _ (by decide) (by decide) (by decide)⟩

/-! ## Claim C1 -/

/-- C1 as stated is false for `_estimate_equity`: on a board that is itself
a royal flush (so hero and both opponents tie with the identical best hand),
the specification's per-trial credit is 1/winners = 1/3, but the code counts
the trial as a 0.5-credit tie event regardless of how many players share the
maximum, returning equity 1/2 after one trial. -/
theorem C1_counterexample :
    (estimate_equity tieHole tieBoard 2 1 rng0).1 = 1 / 2 ∧
    evaluate_hand tieHole tieBoard = tieVal ∧
    evaluate_hand [⟨4, .hearts⟩, ⟨5, .hearts⟩] tieBoard = tieVal ∧
    evaluate_hand [⟨6, .hearts⟩, ⟨7, .hearts⟩] tieBoard = tieVal ∧
    specTrialCredit tieVal [tieVal, tieVal] = 1 / 3 ∧
    ((1 : ℚ) / 2) ≠ 1 / 3 :=
  ⟨by with_unfolding_all rfl, rfl, by decide, by decide,
   by with_unfolding_all rfl, by norm_num⟩

/-- C1 amended: the claim holds for `pokerkit_tool`'s simulator — whenever
the remaining deck suffices for the per-trial draw, the simulation returns
exactly the sum over trials of the specification's credit (1/winners if the
hero ties for the maximum evaluated hand, 0 otherwise) divided by the number
of simulations; `_estimate_equity` of `calc_gto.py` does not satisfy the
per-trial credit rule (see the counterexample). -/
theorem C1_pokerkit_trial_credit_amended (holeCards commCards : List Card)
    (numOpp simulations : Nat) (r : Rng) (_hsims : 1 ≤ simulations)
    (hdeck : 2 * numOpp + (5 - commCards.length)
      ≤ (pkDeckRemain holeCards commCards).length) :
    pkSimulate holeCards commCards numOpp simulations r =
      .ok (specEquity
            (pkTrialHands (pkDeckRemain holeCards commCards) holeCards commCards
              numOpp (2 * numOpp + (5 - commCards.length)) simulations r).1
            simulations,
        (pkTrialHands (pkDeckRemain holeCards commCards) holeCards commCards
          numOpp (2 * numOpp + (5 - commCards.length)) simulations r).2) := by
  simp only [pkSimulate, pkLoop_spec _ _ _ _ _ hdeck, specEquity, zero_add]

/-- Witness for C1: the amended statement at a concrete river situation
(hero A♠ K♠ against one opponent, board fully known, one simulation). -/
theorem C1_pokerkit_trial_credit_amended_witness :
    2 * 1 + (5 - ([⟨12, .spades⟩, ⟨11, .spades⟩, ⟨10, .spades⟩,
        ⟨2, .hearts⟩, ⟨3, .hearts⟩] : List Card).length)
      ≤ (pkDeckRemain [⟨14, .spades⟩, ⟨13, .spades⟩]
          [⟨12, .spades⟩, ⟨11, .spades⟩, ⟨10, .spades⟩,
           ⟨2, .hearts⟩, ⟨3, .hearts⟩]).length ∧
    pkSimulate [⟨14, .spades⟩, ⟨13, .spades⟩]
        [⟨12, .spades⟩, ⟨11, .spades⟩, ⟨10, .spades⟩, ⟨2, .hearts⟩, ⟨3, .hearts⟩]
        1 1 rng0 =
      .ok (specEquity
            (pkTrialHands (pkDeckRemain [⟨14, .spades⟩, ⟨13, .spades⟩]
                [⟨12, .spades⟩, ⟨11, .spades⟩, ⟨10, .spades⟩,
                 ⟨2, .hearts⟩, ⟨3, .hearts⟩])
              [⟨14, .spades⟩, ⟨13, .spades⟩]
              [⟨12, .spades⟩, ⟨11, .spades⟩, ⟨10, .spades⟩,
               ⟨2, .hearts⟩, ⟨3, .hearts⟩]
              1 (2 * 1 + (5 - ([⟨12, .spades⟩, ⟨11, .spades⟩, ⟨10, .spades⟩,
                ⟨2, .hearts⟩, ⟨3, .hearts⟩] : List Card).length)) 1 rng0).1 1,
        (pkTrialHands (pkDeckRemain [⟨14, .spades⟩, ⟨13, .spades⟩]
            [⟨12, .spades⟩, ⟨11, .spades⟩, ⟨10, .spades⟩,
             ⟨2, .hearts⟩, ⟨3, .hearts⟩])
          [⟨14, .spades⟩, ⟨13, .spades⟩]
          [⟨12, .spades⟩, ⟨11, .spades⟩, ⟨10, .spades⟩,
           ⟨2, .hearts⟩, ⟨3, .hearts⟩]
          1 (2 * 1 + (5 - ([⟨12, .spades⟩, ⟨11, .spades⟩, ⟨10, .spades⟩,
            ⟨2, .hearts⟩, ⟨3, .hearts⟩] : List Card).length)) 1 rng0).2) :=
  ⟨by decide, C1_pokerkit_trial_credit_amended _ _ 1 1 rng0 (by decide) (by decide)⟩

/-! ## Claim C5 -/

/-- C5 as stated is false for `_estimate_equity`: with 26 opponents the
50-card remainder cannot supply the 57 cards a trial needs, yet the function
does not fail — every trial is silently skipped and the equity 0.0 is
returned. -/
theorem C5_counterexample :
    (build_remaining_deck ([⟨2, .hearts⟩, ⟨3, .hearts⟩] ++ [])).length = 50 ∧
    50 < 2 * 26 + (5 - ([] : List Card).length) ∧
    (estimate_equity [⟨2, .hearts⟩, ⟨3, .hearts⟩] [] 26 1 rng0).1 = 0 :=
  ⟨by decide, by decide, by with_unfolding_all rfl⟩

/-- C5 amended: when the remaining deck is smaller than the per-trial draw,
`pokerkit_tool`'s simulator fails before any trial completes (the embedded
`random.sample` failure), as the claim states; but `_estimate_equity` of
`calc_gto.py` instead skips every trial and returns the equity 0.0. -/
theorem C5_short_deck_amended :
    (∀ (holeCards commCards : List Card) (numOpp sims : Nat) (r : Rng),
      (pkDeckRemain holeCards commCards).length
          < 2 * numOpp + (5 - commCards.length) → 1 ≤ sims →
      pkSimulate holeCards commCards numOpp sims r
        = .error "sample larger than population") ∧
    ∀ (hole community : List Card) (numOpp iterations : Nat) (r : Rng),
      hole.length = 2 → 1 ≤ numOpp → community.length ≤ 5 →
      (build_remaining_deck (hole ++ community)).length
          < 2 * numOpp + (5 - community.length) →
      (estimate_equity hole community numOpp iterations r).1 = 0 := by
  constructor
  · intro holeCards commCards numOpp sims r hshort hsims
    obtain ⟨m, rfl⟩ : ∃ m, sims = m + 1 := ⟨sims - 1, by omega⟩
    simp only [pkSimulate, pkLoop,
      sampleCards_none _ _ _ (by exact hshort)]
  · intro hole community numOpp iterations r hh hopp hcomm hshort
    have hres := estLoopGto_short hole community
      (build_remaining_deck (hole ++ community)) numOpp hopp hcomm hshort
      (max 1 iterations) (0, 0, 0) r
    simp only [estimate_equity]
    rw [if_neg (by omega)]
    simp only [hres, if_true]

/-- Witness for C5: the pokerkit clause with 23 opponents over a 45-card
remainder, and the calc_gto clause with 26 opponents over a 50-card
remainder. -/
theorem C5_short_deck_amended_witness :
    ((pkDeckRemain [⟨14, .spades⟩, ⟨13, .spades⟩]
        [⟨12, .spades⟩, ⟨11, .spades⟩, ⟨10, .spades⟩,
         ⟨2, .hearts⟩, ⟨3, .hearts⟩]).length
      < 2 * 23 + (5 - ([⟨12, .spades⟩, ⟨11, .spades⟩, ⟨10, .spades⟩,
        ⟨2, .hearts⟩, ⟨3, .hearts⟩] : List Card).length) ∧
      pkSimulate [⟨14, .spades⟩, ⟨13, .spades⟩]
          [⟨12, .spades⟩, ⟨11, .spades⟩, ⟨10, .spades⟩,
           ⟨2, .hearts⟩, ⟨3, .hearts⟩] 23 1 rng0
        = .error "sample larger than population") ∧
    (([⟨2, .clubs⟩, ⟨3, .clubs⟩] : List Card).length = 2 ∧
      (build_remaining_deck ([⟨2, .clubs⟩, ⟨3, .clubs⟩] ++ [])).length
          < 2 * 26 + (5 - ([] : List Card).length) ∧
      (estimate_equity [⟨2, .clubs⟩, ⟨3, .clubs⟩] [] 26 7 rng0).1 = 0) :=
  ⟨⟨by decide, C5_short_deck_amended.1 _ _ 23 1 rng0 (by decide) (by decide)⟩,
   ⟨by decide, by decide,
    C5_short_deck_amended.2 _ _ 26 7 rng0 (by decide) (by decide) (by decide)
      (by decide)⟩⟩

/-! ## Claim C8 -/

/-- C8 as stated is false for `pokerkit_tool`: an unparseable card token
makes it raise `ValueError` (the embedded error result) to its caller — the
error propagates and no fallback decision is produced (the random stream is
untouched because the call aborts during parsing). -/
theorem C8_counterexample :
    (pokerkit_tool ["Xx", "Kd"] [] 1 100 50 100 rng0).1.isOk = false ∧
    (pokerkit_tool ["Xx", "Kd"] [] 1 100 50 100 rng0).2 = rng0 :=
  ⟨by with_unfolding_all rfl, rfl⟩

/-- C8 amended: `calc_gto` behaves as claimed — when card parsing fails it
returns, for every random stream and without consuming it (so the simulator
is never run), the safe-default result: equity 0, a single-entry strategy on
the safe action, and the normalized check-if-free-else-fold recommendation;
`pokerkit_tool`, by contrast, propagates a parse error to its caller (see
the counterexample). -/
theorem C8_parse_fallback_amended (your_cards community : List String)
    (pot to_call : Nat) (actions : List String)
    (num_players stack iterations : Nat) (r : Rng)
    (hfail : (gtoParseCards your_cards community).isOk = false) :
    calc_gto your_cards community pot to_call actions num_players stack
        iterations r
      = ({ equity := 0
           pot_odds := gtoPotOdds pot to_call
           spr := gtoSpr stack pot
           strategy := [((if to_call = 0 then "check" else "fold" : String), 1)]
           recommended := normalize_recommended_action
             ⟨if to_call = 0 then "check" else "fold", 0⟩ actions (stack : Int) },
         r) := by
  rcases hP : gtoParseCards your_cards community with e | pr
  · simp only [calc_gto, hP]
  · rw [hP] at hfail
    simp [Except.isOk, Except.toBool] at hfail

/-- Witness for C8: the fallback at a concrete unparseable token "Zz" with
to_call = 5 (so the safe action is fold) and only fold legal. -/
theorem C8_parse_fallback_amended_witness :
    (gtoParseCards ["Zz"] []).isOk = false ∧
    calc_gto ["Zz"] [] 0 5 ["fold"] 2 100 3 rng0
      = ({ equity := 0
           pot_odds := gtoPotOdds 0 5
           spr := gtoSpr 100 0
           strategy := [((if (5 : Nat) = 0 then "check" else "fold" : String), 1)]
           recommended := normalize_recommended_action
             ⟨if (5 : Nat) = 0 then "check" else "fold", 0⟩ ["fold"] (100 : Int) },
         rng0) :=
  ⟨by with_unfolding_all rfl,
   C8_parse_fallback_amended ["Zz"] [] 0 5 ["fold"] 2 100 3 rng0
     (by with_unfolding_all rfl)⟩

/-! ## Claim C9 -/

/-- C9 as stated is false: a successful `pokerkit_tool` call advances the
shared random stream — after one simulation needing two cards the stream
position has moved from 0 to 2, state that a later call on the same global
generator observes. -/
theorem C9_counterexample :
    (pokerkit_tool ["As", "Ks"] ["Qs", "Js", "Ts", "2h", "3h"]
        1 100 50 1 rng0).2.pos = 2 ∧
    rng0.pos = 0 :=
  ⟨by with_unfolding_all rfl, rfl⟩

/-- C9 amended: the engine is deterministic in the explicit random stream —
two calls with streams that agree in sequence and position return identical
results — but it is not stateless: a successful simulation advances the
stream by exactly simulations * draw-size positions while keeping the
sequence, which is the mutation of the module-global generator that later
calls observe. -/
theorem C9_rng_amended :
    (∀ (hole community : List String) (numOpp : Nat) (pot toCall : ℚ)
        (sims : Nat) (r1 r2 : Rng), r1.seq = r2.seq → r1.pos = r2.pos →
      pokerkit_tool hole community numOpp pot toCall sims r1
        = pokerkit_tool hole community numOpp pot toCall sims r2) ∧
    ∀ (holeCards commCards : List Card) (numOpp sims : Nat) (r : Rng)
      (q : ℚ) (r' : Rng),
      pkSimulate holeCards commCards numOpp sims r = .ok (q, r') →
      r'.seq = r.seq ∧
        r'.pos = r.pos + sims * (2 * numOpp + (5 - commCards.length)) := by
  constructor
  · rintro hole community numOpp pot toCall sims ⟨s1, p1⟩ ⟨s2, p2⟩ hs hp
    simp only at hs hp
    rw [hs, hp]
  · intro holeCards commCards numOpp sims r q r' h
    simp only [pkSimulate] at h
    rcases hL : pkLoop (pkDeckRemain holeCards commCards) holeCards commCards
        numOpp (2 * numOpp + (5 - commCards.length)) sims 0 r with e | p
    · rw [hL] at h; cases h
    · rw [hL] at h
      simp only [Except.ok.injEq, Prod.mk.injEq] at h
      obtain ⟨hs, hp⟩ := pkLoop_rng _ _ _ _ _ sims 0 r p.1 p.2
        (by rw [hL])
      rw [← h.2]
      exact ⟨hs, hp⟩

/-- Witness for C9: both clauses at the concrete river situation of the C1
witness — determinism for two identical streams, and the position advance
for the one-trial run that returns equity 1. -/
theorem C9_rng_amended_witness :
    (rng0.seq = rng0.seq ∧ rng0.pos = rng0.pos ∧
      pokerkit_tool ["As", "Ks"] ["Qs", "Js", "Ts", "2h", "3h"] 1 100 50 1 rng0
        = pokerkit_tool ["As", "Ks"] ["Qs", "Js", "Ts", "2h", "3h"]
            1 100 50 1 rng0) ∧
    (pkSimulate [⟨14, .spades⟩, ⟨13, .spades⟩]
        [⟨12, .spades⟩, ⟨11, .spades⟩, ⟨10, .spades⟩, ⟨2, .hearts⟩, ⟨3, .hearts⟩]
        1 1 rng0 = .ok (1, ⟨rng0.seq, 2⟩) ∧
      (⟨rng0.seq, 2⟩ : Rng).seq = rng0.seq ∧
      (⟨rng0.seq, 2⟩ : Rng).pos = rng0.pos + 1 * (2 * 1 +
        (5 - ([⟨12, .spades⟩, ⟨11, .spades⟩, ⟨10, .spades⟩,
          ⟨2, .hearts⟩, ⟨3, .hearts⟩] : List Card).length))) :=
  ⟨⟨rfl, rfl, C9_rng_amended.1 ["As", "Ks"] ["Qs", "Js", "Ts", "2h", "3h"]
      1 100 50 1 rng0 rng0 rfl rfl⟩,
   ⟨by with_unfolding_all rfl,
    C9_rng_amended.2 [⟨14, .spades⟩, ⟨13, .spades⟩]
      [⟨12, .spades⟩, ⟨11, .spades⟩, ⟨10, .spades⟩, ⟨2, .hearts⟩, ⟨3, .hearts⟩]
      1 1 rng0 1 ⟨rng0.seq, 2⟩ (by with_unfolding_all rfl)⟩⟩
section EvaluatorChecks

example : category5 [⟨14, .spades⟩, ⟨13, .spades⟩, ⟨12, .spades⟩, ⟨11, .spades⟩, ⟨10, .spades⟩] = 8 := by decide
example : category5 [⟨14, .spades⟩, ⟨2, .hearts⟩, ⟨3, .spades⟩, ⟨4, .diamonds⟩, ⟨5, .spades⟩] = 4 := by decide
example : handValue5 [⟨14, .spades⟩, ⟨2, .hearts⟩, ⟨3, .spades⟩, ⟨4, .diamonds⟩, ⟨5, .spades⟩]
    < handValue5 [⟨6, .spades⟩, ⟨2, .hearts⟩, ⟨3, .spades⟩, ⟨4, .diamonds⟩, ⟨5, .spades⟩] := by decide
example : category5 [⟨13, .spades⟩, ⟨13, .hearts⟩, ⟨13, .diamonds⟩, ⟨2, .clubs⟩, ⟨2, .spades⟩] = 6 := by decide
example : category5 [⟨13, .spades⟩, ⟨13, .hearts⟩, ⟨7, .diamonds⟩, ⟨2, .clubs⟩, ⟨2, .spades⟩] = 2 := by decide
example : category5 [⟨13, .spades⟩, ⟨13, .hearts⟩, ⟨7, .diamonds⟩, ⟨3, .clubs⟩, ⟨2, .spades⟩] = 1 := by decide
example : category5 [⟨13, .spades⟩, ⟨9, .hearts⟩, ⟨7, .diamonds⟩, ⟨3, .clubs⟩, ⟨2, .spades⟩] = 0 := by decide
example : category5 [⟨13, .spades⟩, ⟨9, .spades⟩, ⟨7, .spades⟩, ⟨3, .spades⟩, ⟨2, .spades⟩] = 5 := by decide
example : category5 [⟨13, .spades⟩, ⟨13, .hearts⟩, ⟨13, .diamonds⟩, ⟨13, .clubs⟩, ⟨2, .spades⟩] = 7 := by decide
example : category5 [⟨13, .spades⟩, ⟨13, .hearts⟩, ⟨13, .diamonds⟩, ⟨3, .clubs⟩, ⟨2, .spades⟩] = 3 := by decide
example : bestHandValue [⟨2, .spades⟩, ⟨3, .diamonds⟩, ⟨4, .hearts⟩, ⟨5, .hearts⟩, ⟨6, .hearts⟩, ⟨7, .hearts⟩, ⟨8, .hearts⟩] / 16 ^ 5 = 8 := by decide

end EvaluatorChecks